import Mathlib

/-!
Verification of the i18n hardcoded-text checker.

This file is a shallow embedding of the repository's JavaScript/TypeScript
sources into Lean.  Node trees are modelled as they are produced by the
`@babel/parser` collaborator (so string literal nodes carry the tag
`StringLiteral`, not the ESTree tag `Literal`), and each checker variant in
the repository is embedded separately:

* `EnhancedErrorReporter` (enhanced-error-reporter.mjs, first segment);
* the enhanced `EnhancedToastChecker` (same file, last segment — the variant
  with the `StringLiteral` case and the object-argument expansion);
* `JSXHardcodedChecker` from jsx-hardcoded-checker.mjs (functions prefixed
  with `mjs_`);
* the TypeScript rewrite `JSXHardcodeChecker` (functions prefixed with
  `part003_`);
* the TypeScript `ErrorReporter` variants (prefixed `part000_` / `part001_`).

Machine strings are Lean `String`s; `String.length` counts code points where
JavaScript counts UTF-16 units — the two agree on every value appearing in
this development.  Console logging and colorization (`chalk`) are identity
on the text and are dropped.
-/

/-! ## JavaScript string semantics -/

/-- A literal `{` character (written via `Char.ofNat` so that no brace
appears in source text). -/
def lbraceChar : Char := Char.ofNat 123

/-- A literal `}` character. -/
def rbraceChar : Char := Char.ofNat 125

/-- The character class `\s` of JavaScript regular expressions, which is also
exactly the set of characters removed by `String.prototype.trim`
(WhiteSpace ∪ LineTerminator). -/
def jsIsWs (c : Char) : Bool :=
  c = ' ' || c = '\t' || c = '\n' || c = '\r' ||
  c = Char.ofNat 0x0b || c = Char.ofNat 0x0c ||
  c = Char.ofNat 0xa0 || c = Char.ofNat 0x1680 ||
  (0x2000 ≤ c.toNat && c.toNat ≤ 0x200a) ||
  c = Char.ofNat 0x2028 || c = Char.ofNat 0x2029 ||
  c = Char.ofNat 0x202f || c = Char.ofNat 0x205f ||
  c = Char.ofNat 0x3000 || c = Char.ofNat 0xfeff

/-- JavaScript line terminators (the characters `.` does not match in a
regular expression without the `s` flag). -/
def jsIsLineTerm (c : Char) : Bool :=
  c = '\n' || c = '\r' || c = Char.ofNat 0x2028 || c = Char.ofNat 0x2029

/-- `String.prototype.trim`. -/
def jsTrim (s : String) : String :=
  String.mk (((s.data.dropWhile jsIsWs).reverse.dropWhile jsIsWs).reverse)

/-- ASCII lower-casing.  `toLowerCase` is applied in the sources only to
strings drawn from the alphabet `[a-zA-Z0-9\s가-힣]` (after the clean-up
replace in `suggestKey`), on which JavaScript lower-casing coincides with
ASCII lower-casing (Hangul syllables and digits are caseless). -/
def asciiLower (c : Char) : Char :=
  if 'A' ≤ c ∧ c ≤ 'Z' then Char.ofNat (c.toNat + 32) else c

/-- ASCII upper-casing (see `asciiLower` for the alphabet justification). -/
def asciiUpper (c : Char) : Char :=
  if 'a' ≤ c ∧ c ≤ 'z' then Char.ofNat (c.toNat - 32) else c

/-- `String.prototype.toLowerCase` on the restricted alphabet. -/
def jsToLower (s : String) : String := String.mk (s.data.map asciiLower)

/-- State machine for `String.prototype.split(/\s+/)`: walks the characters,
closing the current token at each maximal whitespace run.  `cur` holds the
current token reversed; `lastWs` records whether the previous character was
whitespace. -/
def jsSplitWsGo : List Char → List Char → Bool → List String → List String
  | [], cur, _, acc => acc ++ [String.mk cur.reverse]
  | c :: cs, cur, lastWs, acc =>
    if jsIsWs c then
      if lastWs then jsSplitWsGo cs cur true acc
      else jsSplitWsGo cs [] true (acc ++ [String.mk cur.reverse])
    else jsSplitWsGo cs (c :: cur) false acc

/-- `s.split(/\s+/)` (so `""` yields `[""]`, and leading/trailing whitespace
yields empty boundary tokens — the sources always trim first). -/
def jsSplitWs (s : String) : List String := jsSplitWsGo s.data [] false []

/-- JavaScript `a || b` on an optional number, where `undefined` and `0` are
falsy — models expressions such as `arg.loc?.start.line || 0`. -/
def orFalsy (a : Option Nat) (d : Nat) : Nat :=
  match a with
  | some n => if n = 0 then d else n
  | none => d

/-! ## Allow-List Matcher (`allowPatterns` and `isAllowedPattern`) -/

/-- The allow patterns of the enhanced toast checker's default
configuration.  Each regular-expression literal from the source is one
constructor; `substr s` models a plain-string pattern, matched via
`value.includes(pattern)`. -/
inductive AllowPattern where
  /-- `/^t\(['"]/` — i18n call `t('key')`. -/
  | reTCall
  /-- `/^i18n\./` — i18n object access. -/
  | reI18n
  /-- `/^\$\{.*\}$/` — a pure template placeholder. -/
  | reTemplateVar
  /-- `/^(true|false|null|undefined)$/`. -/
  | reLiteralConst
  /-- `/^\d+$/` — a pure integer. -/
  | reDigits
  /-- `/^['"]?\s*['"]?$/` — an (optionally quoted) blank string. -/
  | reQuotesWs
  /-- `/^console\./`. -/
  | reConsole
  /-- `/^process\.env\./`. -/
  | reProcessEnv
  /-- `/^import\(/`. -/
  | reDynImport
  /-- `/^require\(/`. -/
  | reRequire
  /-- A plain-string pattern, tested with `value.includes(pattern)`. -/
  | substr (s : String)

/-- Decision procedure for `/^\$\{.*\}$/`: the value starts with `${`, ends
with `}`, and the middle contains no line terminator (`.` does not match
line terminators). -/
def templateVarTest (v : String) : Bool :=
  let cs := v.data
  decide (3 ≤ cs.length) &&
  (cs.take 2 == ['$', lbraceChar]) &&
  (cs.getLast? == some rbraceChar) &&
  ((cs.drop 2).dropLast.all (fun c => !jsIsLineTerm c))

/-- Decision procedure for `/^['"]?\s*['"]?$/`: strip one optional leading
quote and one optional trailing quote; the rest must be all whitespace
(quotes are not whitespace, so this is equivalent to the regex). -/
def quotesWsTest (v : String) : Bool :=
  let cs := v.data
  let cs1 := match cs with
    | c :: rest => if c = '\'' || c = '"' then rest else cs
    | [] => []
  let cs2 := match cs1.getLast? with
    | some c => if c = '\'' || c = '"' then cs1.dropLast else cs1
    | none => cs1
  cs2.all jsIsWs

/-- Is the first character list a prefix of the second? -/
def charsLeadingMatch : List Char → List Char → Bool
  | [], _ => true
  | _ :: _, [] => false
  | a :: as, b :: bs => a == b && charsLeadingMatch as bs

/-- `v.startsWith pre` (written over character lists so that evaluation is
kernel-reducible). -/
def strStartsWith (v pre : String) : Bool := charsLeadingMatch pre.data v.data

/-- Is `needle` a contiguous substring of the character list?  Models
`String.prototype.includes`. -/
def charsInfix (needle : List Char) : List Char → Bool
  | [] => needle.isEmpty
  | c :: rest => charsLeadingMatch needle (c :: rest) || charsInfix needle rest

/-- `pattern instanceof RegExp ? pattern.test(value) : value.includes(pattern)`. -/
def patternTest (p : AllowPattern) (v : String) : Bool :=
  match p with
  | .reTCall => strStartsWith v "t('" || strStartsWith v "t(\""
  | .reI18n => strStartsWith v "i18n."
  | .reTemplateVar => templateVarTest v
  | .reLiteralConst => v = "true" || v = "false" || v = "null" || v = "undefined"
  | .reDigits => (!v.data.isEmpty) && v.data.all (fun c => '0' ≤ c && c ≤ '9')
  | .reQuotesWs => quotesWsTest v
  | .reConsole => strStartsWith v "console."
  | .reProcessEnv => strStartsWith v "process.env."
  | .reDynImport => strStartsWith v "import("
  | .reRequire => strStartsWith v "require("
  | .substr s => charsInfix s.data v.data

/-- The run configuration of the enhanced toast checker (`this.options`). -/
structure ToastOptions where
  toastFunctions : List String
  objectProperties : List String
  allowPatterns : List AllowPattern

/-- `isAllowedPattern` of the enhanced toast checker (lines 941–950):
`if (!value || value.trim() === '') return true;` then
`allowPatterns.some(...)`. -/
def isAllowedPattern (cfg : ToastOptions) (value : String) : Bool :=
  if value = "" || jsTrim value = "" then true
  else cfg.allowPatterns.any (fun p => patternTest p value)

/-- The default configuration built in the enhanced toast checker's
constructor (the last class in enhanced-error-reporter.mjs, which includes
the extra `message` entry). -/
def defaultToastOptions : ToastOptions where
  toastFunctions :=
    ["message.error", "message.success", "message.warning", "message.info",
     "message.loading",
     "Message.error", "Message.success", "Message.warning", "Message.info",
     "toast.error", "toast.success", "toast.warning", "toast.info",
     "notification.error", "notification.success", "notification.warning",
     "notification.info", "notification.open",
     "alert", "confirm", "prompt",
     "showMessage", "showError", "showSuccess", "showWarning",
     "message"]
  objectProperties :=
    ["title", "message", "description", "content", "label", "placeholder",
     "tooltip", "helpText", "errorMessage", "successMessage",
     "warningMessage", "text", "body", "detail"]
  allowPatterns :=
    [.reTCall, .reI18n, .reTemplateVar, .reLiteralConst, .reDigits,
     .reQuotesWs, .reConsole, .reProcessEnv, .reDynImport, .reRequire]

/-! ## The Babel node tree

The parser collaborator is `@babel/parser`, which produces Babel-flavoured
nodes: string literals carry the type tag `StringLiteral` and numbers
`NumericLiteral` (the ESTree tag `Literal` is never produced, since the
`estree` plugin is not enabled in any of the `parse` calls).  Each node
carries an optional source location (`node.loc?.start`, 1-based line /
0-based column). -/

/-- A source position (`loc.start`). -/
structure Loc where
  line : Nat
  column : Nat

/-- The key of an object property: an identifier, a string literal
(`StringLiteral` in the Babel tree), or any other key shape (numeric,
computed, …). -/
inductive PropKey where
  | keyIdent (name : String)
  | keyString (value : String)
  | keyOther

mutual
/-- Babel expression / JSX-child nodes, restricted to the shapes the
checkers dispatch on; every other shape is `otherExpr`. -/
inductive Node where
  /-- `StringLiteral` (a `value` field holding a string). -/
  | stringLit (loc : Option Loc) (value : String)
  /-- `NumericLiteral` (a `value` field holding a number). -/
  | numericLit (loc : Option Loc) (value : Int)
  /-- `TemplateLiteral`: the raw texts of the `quasis` and the interpolated
  `expressions`. -/
  | templateLit (loc : Option Loc) (quasis : List String) (expressions : List Node)
  /-- `JSXText` (a `value` field holding the raw text). -/
  | jsxText (loc : Option Loc) (value : String)
  /-- `JSXExpressionContainer` (an `expression` field, no `value` field). -/
  | jsxExprContainer (loc : Option Loc) (expression : Node)
  /-- `ObjectExpression`. -/
  | objectExpr (loc : Option Loc) (properties : List ObjProp)
  /-- `ArrayExpression` (elements may be `null` in sparse arrays). -/
  | arrayExpr (loc : Option Loc) (elements : List (Option Node))
  /-- `CallExpression`. -/
  | callExpr (loc : Option Loc) (callee : Node) (arguments : List Node)
  /-- `MemberExpression` with a named (non-computed) property. -/
  | memberExpr (loc : Option Loc) (obj : Node) (propertyName : String)
  /-- `Identifier` (a `name` field, no `value` field). -/
  | ident (loc : Option Loc) (name : String)
  /-- Any other node shape (binary expressions, complex calls, …); such
  nodes have no `value` field. -/
  | otherExpr (loc : Option Loc)

/-- Members of an `ObjectExpression`. -/
inductive ObjProp where
  | objectProperty (loc : Option Loc) (key : PropKey) (value : Node)
  | spreadElement (loc : Option Loc) (argument : Node)
  /-- e.g. an `ObjectMethod`. -/
  | otherProp (loc : Option Loc)
end

/-- `node.loc` of a modelled node. -/
def nodeLoc : Node → Option Loc
  | .stringLit l _ => l
  | .numericLit l _ => l
  | .templateLit l _ _ => l
  | .jsxText l _ => l
  | .jsxExprContainer l _ => l
  | .objectExpr l _ => l
  | .arrayExpr l _ => l
  | .callExpr l _ _ => l
  | .memberExpr l _ _ => l
  | .ident l _ => l
  | .otherExpr l => l

/-- `node.loc?.start.line`. -/
def nodeLine (n : Node) : Option Nat := (nodeLoc n).map Loc.line

/-- `node.loc?.start.column`. -/
def nodeColumn (n : Node) : Option Nat := (nodeLoc n).map Loc.column

/-! ## EnhancedErrorReporter (enhanced-error-reporter.mjs, first segment)

The file system is modelled as a function `fls : String → Option String`
from path to content (`none` = `readFileSync` throws).  The `fileCache` is
an optimization that is invisible in this pure denotation: a cache entry is
always the split content of the (unchanging) file, or `[]` when the read
failed, which is exactly what `getFileLines` returns below. -/

/-- Helper for splitting on newline characters. -/
def jsSplitNewlineGo : List Char → List Char → List String
  | [], cur => [String.mk cur.reverse]
  | c :: cs, cur =>
    if c = '\n' then String.mk cur.reverse :: jsSplitNewlineGo cs []
    else jsSplitNewlineGo cs (c :: cur)

/-- `content.split('\n')` (so `""` yields `[""]`). -/
def jsSplitNewline (s : String) : List String := jsSplitNewlineGo s.data []

/-- `getFileLines`: the file's content split on `'\n'`, or `[]` when the
read fails. -/
def getFileLines (fls : String → Option String) (filePath : String) : List String :=
  match fls filePath with
  | some content => jsSplitNewline content
  | none => []

/-- One entry of the context array built by `createCodeContext`.  The
`column` field is present (`some`) exactly on the error line. -/
structure ContextLine where
  lineNumber : String
  content : String
  isError : Bool
  column : Option Nat

/-- `i.toString().padStart(3, ' ')`. -/
def padStart3 (s : String) : String :=
  if s.length ≥ 3 then s else String.mk (List.replicate (3 - s.length) ' ') ++ s

/-- `createCodeContext(filePath, line, column, contextLines)`. -/
def createCodeContext (fls : String → Option String) (filePath : String)
    (line column contextLines : Nat) : List ContextLine :=
  let lines := getFileLines fls filePath
  let startLine := max 1 (line - contextLines)
  let endLine := min lines.length (line + contextLines)
  (List.range' startLine (endLine + 1 - startLine)).map (fun i =>
    let lineContent := (lines.get? (i - 1)).getD ""
    let lineNumber := padStart3 (toString i)
    if i = line then
      ⟨lineNumber, lineContent, true, some column⟩
    else
      ⟨lineNumber, lineContent, false, none⟩)

/-- `' '.repeat n`. -/
def spaces (n : Nat) : String := String.mk (List.replicate n ' ')

/-- `generateCodeSnippet(context, column)` (chalk colors are identity). -/
def generateCodeSnippet (context : List ContextLine) (column : Nat) : String :=
  String.intercalate "\n" (context.foldr (fun cl rest =>
    (if cl.isError then
      [cl.lineNumber ++ "| " ++ cl.content] ++
        (if column > 0 then
          [spaces (cl.lineNumber.length + 1) ++ "| " ++ (spaces column ++ "^^^")]
        else [])
    else
      [cl.lineNumber ++ "| " ++ cl.content]) ++ rest) [])

/-- A raw finding (the `errorInfo` objects built by the checkers).  Fields
that a given checker does not set are `none` (JavaScript `undefined`). -/
structure ErrorInfo where
  line : Nat
  column : Nat
  message : String
  type : String
  value : String
  functionName : Option String
  propertyName : Option String
  attributeName : Option String
  suggestion : Option String

/-- The object returned by `formatError`: the spread copy of the input
finding (`...error`, the `err` component) plus exactly the three added
fields `filePath`, `context` and `codeSnippet`. -/
structure FormattedError where
  err : ErrorInfo
  filePath : String
  context : List ContextLine
  codeSnippet : String

/-- `formatError(error, filePath)` of EnhancedErrorReporter. -/
def formatError (fls : String → Option String) (error : ErrorInfo)
    (filePath : String) : FormattedError :=
  let context := createCodeContext fls filePath error.line error.column 2
  ⟨error, filePath, context, generateCodeSnippet context error.column⟩

/-- `groupErrorsByFile`: the reduce into a plain object, which preserves
first-insertion key order (file paths are non-numeric property keys). -/
def groupErrorsByFile (errors : List FormattedError) :
    List (String × List FormattedError) :=
  errors.foldl (fun groups e =>
    if groups.any (fun g => g.1 = e.filePath) then
      groups.map (fun g => if g.1 = e.filePath then (g.1, g.2 ++ [e]) else g)
    else groups ++ [(e.filePath, [e])]) []

/-- `'─'.repeat 80`. -/
def reportSeparator : String := String.mk (List.replicate 80 '─')

/-- `generateFixGuide` (chalk identity; `\x7b`/`\x7d` are literal braces). -/
def generateFixGuide : String :=
  "\n📚 수정 가이드:\n" ++
  "1. JSX 텍스트: <div>하드코딩</div> → <div>\x7bt('key')\x7d</div>\n" ++
  "2. 속성 값: <img alt=\"하드코딩\" /> → <img alt=\x7bt('alt.key')\x7d />\n" ++
  "3. Toast 메시지: message.error('하드코딩') → message.error(t('error.key'))\n" ++
  "4. 객체 속성: title: '하드코딩' → title: t('title.key')\n"

/-- The lines pushed for one grouped file in `generateReport`. -/
def reportFileSection (filePath : String) (fileErrors : List FormattedError) :
    List String :=
  ["📁 " ++ filePath ++ " (" ++ toString fileErrors.length ++ "개 에러)",
   reportSeparator] ++
  (fileErrors.enum.foldr (fun ie rest =>
    (["\nError " ++ toString (ie.1 + 1) ++ ": " ++ ie.2.err.message] ++
     (match ie.2.err.suggestion with
      | some s => if s = "" then [] else ["💡 제안: " ++ s]
      | none => []) ++
     [ie.2.codeSnippet] ++
     (if ie.1 < fileErrors.length - 1 then [""] else [])) ++ rest) []) ++
  ["\n" ++ reportSeparator ++ "\n"]

/-- The `report` array built by `generateReport` before `join('\n')`
(non-empty input). -/
def generateReportLines (errors : List FormattedError) : List String :=
  ["🚨 총 " ++ toString errors.length ++ "개의 하드코딩 발견!\n"] ++
  ((groupErrorsByFile errors).foldr (fun g rest => reportFileSection g.1 g.2 ++ rest) []) ++
  [generateFixGuide]

/-- `generateReport(errors)` of EnhancedErrorReporter. -/
def generateReport (errors : List FormattedError) : String :=
  if errors.length = 0 then "✅ 하드코딩된 콘텐츠가 발견되지 않았습니다!"
  else String.intercalate "\n" (generateReportLines errors)

/-! ## EnhancedToastChecker (enhanced-error-reporter.mjs, last segment) -/

/-- `getCalleeText(node)`: joins member-access segments with `.`;
identifiers give their name; any other callee shape gives `''`. -/
def getCalleeText : Node → String
  | .memberExpr _ obj propertyName => getCalleeText obj ++ "." ++ propertyName
  | .ident _ name => name
  | _ => ""

/-- Matcher for the regular expression obtained from a wildcard toast
function pattern by `func.replace(/\*/g, '.*')` wrapped in `^...$`: a `*`
in `func` matches any (possibly empty) run of non-line-terminator
characters, a `.` matches any single non-line-terminator character, and
every other character of the default configuration matches itself (no other
regex metacharacter occurs in a configured name). -/
def regexDotStarMatch : List Char → List Char → Bool
  | [], [] => true
  | [], _ :: _ => false
  | '*' :: ps, s =>
    regexDotStarMatch ps s ||
      (match s with
       | [] => false
       | c :: cs => (!jsIsLineTerm c) && regexDotStarMatch ('*' :: ps) cs)
  | '.' :: _, [] => false
  | '.' :: ps, c :: cs => (!jsIsLineTerm c) && regexDotStarMatch ps cs
  | _ :: _, [] => false
  | p :: ps, c :: cs => p == c && regexDotStarMatch ps cs
termination_by ps s => (ps.length, s.length)

/-- `isToastFunction(calleeText)`. -/
def isToastFunction (cfg : ToastOptions) (calleeText : String) : Bool :=
  cfg.toastFunctions.any (fun func =>
    if func.data.contains '*' then regexDotStarMatch func.data calleeText.data
    else calleeText = func)

/-- `isUserFacingProperty(node)` — dispatches on `node.key?.type`.  The
source's second branch tests `key.type === 'Literal'`, a tag `@babel/parser`
never emits (string keys are `StringLiteral`), so it never fires. -/
def isUserFacingProperty (cfg : ToastOptions) : ObjProp → Bool
  | .objectProperty _ (.keyIdent n) _ => cfg.objectProperties.contains n
  | _ => false

/-- `MIN_STATIC_LENGTH` from `hasSignificantStaticContent`. -/
def minimumStaticTemplateLength : Nat := 3

/-- `hasSignificantStaticContent(templateLiteralNode)`: the summed length
of the quasis' raw texts reaches `MIN_STATIC_LENGTH`; non-template nodes
give `false`. -/
def hasSignificantStaticContent : Node → Bool
  | .templateLit _ quasis _ =>
    decide (minimumStaticTemplateLength ≤ quasis.foldl (fun total q => total + q.length) 0)
  | _ => false

mutual
/-- `isHardcodedValue(node)` of the enhanced toast checker (the variant
with the `StringLiteral`, `ObjectExpression` and `ArrayExpression` cases).
The `node.type === 'Literal'` disjunct never fires on a Babel tree, and
`NumericLiteral` nodes fail the `typeof node.value === 'string'` test, so
both fall to the final `false`. -/
def isHardcodedValue (cfg : ToastOptions) : Node → Bool
  | .stringLit _ v => !isAllowedPattern cfg v
  | .templateLit l qs es =>
    if es.length = 0 then !isAllowedPattern cfg (qs.head?.getD "")
    else hasSignificantStaticContent (.templateLit l qs es)
  | .jsxExprContainer _ e => isHardcodedValue cfg e
  | .objectExpr _ props => hasHardcodedObjectProperties cfg props
  | .arrayExpr _ elems => arrayElemsHardcoded cfg elems
  | _ => false

/-- `hasHardcodedObjectProperties(objectNode)`: `properties.some(...)`
(written as explicit list recursion). -/
def hasHardcodedObjectProperties (cfg : ToastOptions) : List ObjProp → Bool
  | [] => false
  | p :: ps => objPropHardcodedGuard cfg p || hasHardcodedObjectProperties cfg ps

/-- The callback of the `some` in `hasHardcodedObjectProperties`: a
user-facing `ObjectProperty` with a hardcoded value, or a `SpreadElement`
whose spread source is hardcoded. -/
def objPropHardcodedGuard (cfg : ToastOptions) : ObjProp → Bool
  | .objectProperty l k v =>
    isUserFacingProperty cfg (.objectProperty l k v) && isHardcodedValue cfg v
  | .spreadElement _ a => isHardcodedValue cfg a
  | .otherProp _ => false

/-- `elements.some(element => element && isHardcodedValue(element))`. -/
def arrayElemsHardcoded (cfg : ToastOptions) : List (Option Node) → Bool
  | [] => false
  | some e :: rest => isHardcodedValue cfg e || arrayElemsHardcoded cfg rest
  | none :: rest => arrayElemsHardcoded cfg rest
end

/-- `findHardcodedArguments(args)`. -/
def findHardcodedArguments (cfg : ToastOptions) (args : List Node) : List Node :=
  args.filter (fun arg => isHardcodedValue cfg arg)

/-- `getStringValue(node)` of the enhanced toast checker. -/
def getStringValue : Node → String
  | .stringLit _ v => v
  | .templateLit _ qs es =>
    if es.length = 0 then (qs.head?).getD ""
    else
      let staticParts := String.join qs
      if staticParts = "" then "[템플릿 리터럴]" else staticParts
  | .jsxExprContainer _ e => getStringValue e
  | _ => "[복잡한 표현식]"

/-- The `prefixMap` lookup in `getContextPrefix` (named `contextPrefixOf`
here), defaulting to `common`. -/
def contextPrefixOf (context : String) : String :=
  (([("message.error", "error"), ("message.success", "success"),
     ("message.warning", "warning"), ("message.info", "info"),
     ("Message.error", "error"), ("Message.success", "success"),
     ("Message.warning", "warning"),
     ("alert", "alert"), ("confirm", "confirm"), ("title", "title"),
     ("description", "description"), ("label", "label"),
     ("placeholder", "placeholder"), ("tooltip", "tooltip"),
     ("helpText", "help")] : List (String × String)).lookup context).getD "common"

/-- Is `c` kept by `value.replace(/[^a-zA-Z0-9\s가-힣]/g, '')`? -/
def suggestKeyKeepChar (c : Char) : Bool :=
  ('a' ≤ c && c ≤ 'z') || ('A' ≤ c && c ≤ 'Z') || ('0' ≤ c && c ≤ '9') ||
  jsIsWs c || (0xac00 ≤ c.toNat && c.toNat ≤ 0xd7a3)

/-- `/[가-힣]/.test(word)`. -/
def containsHangul (w : String) : Bool :=
  w.data.any (fun c => 0xac00 ≤ c.toNat && c.toNat ≤ 0xd7a3)

/-- `word.charAt(0).toUpperCase() + word.slice(1).toLowerCase()`. -/
def capitalizeJs (w : String) : String :=
  match w.data with
  | [] => ""
  | c :: rest => String.mk (asciiUpper c :: rest.map asciiLower)

/-- `suggestKey(context, value)`. -/
def suggestKey (context value : String) : String :=
  let cleanValue :=
    String.join ((jsSplitWs (jsTrim (String.mk (value.data.filter suggestKeyKeepChar)))).enum.map
      (fun iw =>
        if iw.1 = 0 then jsToLower iw.2
        else if containsHangul iw.2 then iw.2
        else capitalizeJs iw.2))
  contextPrefixOf context ++ "." ++ cleanValue

/-- `prop.key.name || prop.key.value` (an identifier's name, else a string
key's value; other key shapes are not exercised by the claims). -/
def propKeyName : PropKey → String
  | .keyIdent n => n
  | .keyString s => s
  | .keyOther => ""

/-- Does a property of an object argument get its own finding in
`getObjectPropertyErrors`?  This is the guard of the `forEach`:
`prop.type === 'ObjectProperty' && isUserFacingProperty(prop) &&
isHardcodedValue(prop.value)`. -/
def offendingProperty (cfg : ToastOptions) (p : ObjProp) : Bool :=
  match p with
  | .objectProperty l k v =>
    isUserFacingProperty cfg (.objectProperty l k v) && isHardcodedValue cfg v
  | _ => false

/-- The `errorInfo` object built for one offending property in
`getObjectPropertyErrors`. -/
def objPropErrorInfo (functionName : String) : ObjProp → ErrorInfo
  | .objectProperty ploc k v =>
    let propertyName := propKeyName k
    ⟨orFalsy (nodeLine v) (orFalsy (ploc.map Loc.line) 0),
     orFalsy (nodeColumn v) (orFalsy (ploc.map Loc.column) 0),
     "하드코딩된 " ++ functionName ++ " 객체 속성 \"" ++ propertyName ++ "\"",
     "toast-object-property",
     getStringValue v,
     some functionName,
     some propertyName,
     none,
     some (propertyName ++ ": t('" ++ suggestKey propertyName (getStringValue v) ++ "')")⟩
  | .spreadElement _ _ => ⟨0, 0, "", "", "", none, none, none, none⟩
  | .otherProp _ => ⟨0, 0, "", "", "", none, none, none, none⟩

/-- `getObjectPropertyErrors(objectNode, functionName, filePath)`: one
formatted error per offending property (the `forEach`/push loop written as
`filter` + `map`). -/
def getObjectPropertyErrors (cfg : ToastOptions) (fls : String → Option String)
    (props : List ObjProp) (functionName filePath : String) : List FormattedError :=
  ((props.filter (offendingProperty cfg)).map (fun p =>
    formatError fls (objPropErrorInfo functionName p) filePath))

/-- The `errorInfo` object built for a non-object hardcoded argument in the
`CallExpression` visitor. -/
def toastArgErrorInfo (calleeText : String) (arg : Node) : ErrorInfo :=
  ⟨orFalsy (nodeLine arg) 0,
   orFalsy (nodeColumn arg) 0,
   "하드코딩된 " ++ calleeText ++ " 메시지",
   "toast-function",
   getStringValue arg,
   some calleeText,
   none,
   none,
   some (calleeText ++ "(t('" ++ suggestKey calleeText (getStringValue arg) ++ "'))")⟩

/-- The `CallExpression` visitor of the enhanced toast checker's
`checkFile`, applied to one call node (callee and arguments): if the
reconstructed callee path is a configured toast function, every hardcoded
argument yields findings — an `ObjectExpression` argument is expanded by
`getObjectPropertyErrors`, any other argument yields one formatted error. -/
def toastCheckCall (cfg : ToastOptions) (fls : String → Option String)
    (filePath : String) (callee : Node) (args : List Node) : List FormattedError :=
  let calleeText := getCalleeText callee
  if isToastFunction cfg calleeText then
    (findHardcodedArguments cfg args).flatMap (fun arg =>
      match arg with
      | .objectExpr _ props => getObjectPropertyErrors cfg fls props calleeText filePath
      | _ => [formatError fls (toastArgErrorInfo calleeText arg) filePath])
  else []

/-! ## JSXHardcodedChecker (jsx-hardcoded-checker.mjs, `mjs_` prefix) and
the TypeScript rewrite `JSXHardcodeChecker` (`part003_` prefix)

Both checkers parse with `@babel/parser` and visit every `JSXElement` of
the tree; the parser collaborator is modelled as a function
`parseFile : String → Option (List JSXElem)` giving, per file path, the
JSX elements the traversal visits in order (`none` = the parse throws). -/

/-- `node.openingElement.name`. -/
inductive JSXName where
  | jsxIdentifier (name : String)
  /-- `JSXMemberExpression` or any other name shape (no `name` string). -/
  | jsxOtherName

/-- One entry of `node.openingElement.attributes`. -/
inductive JSXAttrEntry where
  | jsxAttribute (loc : Option Loc) (name : String) (value : Option Node)
  | jsxSpreadAttribute (loc : Option Loc)

/-- A `JSXElement` node, restricted to what the two JSX checkers read. -/
structure JSXElem where
  name : JSXName
  attributes : List JSXAttrEntry
  children : List Node

/-- A per-tag entry of the `dom` table (only `checkProps`; `allowStrings`
and `allowNumbers` are absent and fall back to the destructuring
defaults). -/
structure DomEntry where
  checkProps : List String

/-- The checker options object (`this.options` of the .mjs checker; the
`Options` value injected into the TypeScript rewrite has the same shape).
The `modules` table is empty in the repository and is omitted. -/
structure JSXOptions where
  allowStrings : Bool
  allowNumbers : Bool
  checkProps : List String
  dom : List (String × DomEntry)

/-- The object returned by `getOptionsForNode` as seen through the
destructuring-with-defaults of `checkChildren` / `checkProps`: a field that
the selected object lacks is `none` (JavaScript `undefined`), and the
destructuring default then applies. -/
structure ResolvedJSXOptions where
  allowStrings : Option Bool
  allowNumbers : Option Bool
  checkProps : Option (List String)

/-- The full options object, viewed as a resolved policy. -/
def fullResolvedOptions (opts : JSXOptions) : ResolvedJSXOptions :=
  ⟨some opts.allowStrings, some opts.allowNumbers, some opts.checkProps⟩

/-- A `dom` table entry, viewed as a resolved policy (only `checkProps`). -/
def domResolvedOptions (d : DomEntry) : ResolvedJSXOptions :=
  ⟨none, none, some d.checkProps⟩

/-- `getOptionsForNode(node)` — identical resolution in both JSX checker
variants: a tag whose first character is already lower-case consults the
`dom` table (falling back to the full options); components and non-identifier
names use the full options.  `Char.toLower` is ASCII, which agrees with
`String.prototype.toLowerCase` on the tag names concerned. -/
def getOptionsForNode (opts : JSXOptions) : JSXName → ResolvedJSXOptions
  | .jsxIdentifier tagName =>
    match tagName.data with
    | [] => fullResolvedOptions opts
    | c :: _ =>
      if c = c.toLower then
        match opts.dom.lookup tagName with
        | some d => domResolvedOptions d
        | none => fullResolvedOptions opts
      else fullResolvedOptions opts
  | .jsxOtherName => fullResolvedOptions opts

/-- The default configuration built in the .mjs checker's constructor. -/
def jsxDefaultOptions : JSXOptions where
  allowStrings := false
  allowNumbers := true
  checkProps := ["title", "aria-label", "alt", "placeholder"]
  dom :=
    [("img", ⟨["alt", "title", "aria-label"]⟩),
     ("input", ⟨["placeholder", "title", "aria-label"]⟩),
     ("button", ⟨["title", "aria-label"]⟩),
     ("a", ⟨["title", "aria-label"]⟩),
     ("area", ⟨["alt", "title", "aria-label"]⟩)]

/-- `isInvalidContent(node, ...)` of jsx-hardcoded-checker.mjs, on a
non-null node.  The `node.type === "Literal"` branch of the source never
fires on a Babel tree (string/number literal nodes carry the tags
`StringLiteral` / `NumericLiteral`), so those nodes fall through to
`false`. -/
def mjs_isInvalidContentNode (aS aN : Bool) : Node → Bool
  | .jsxText _ v => if jsTrim v = "" then false else !aS
  | .stringLit _ _ => false
  | .numericLit _ _ => false
  | .templateLit _ _ _ => !aS
  | .jsxExprContainer _ e => mjs_isInvalidContentNode aS aN e
  | _ => false

/-- `isInvalidContent` including the `if (!node) return false` null check
(a JSX attribute with no value passes `undefined`). -/
def mjs_isInvalidContent (aS aN : Bool) : Option Node → Bool
  | none => false
  | some n => mjs_isInvalidContentNode aS aN n

/-- `getStringValue(node)` of jsx-hardcoded-checker.mjs on a non-null node
(the `node.type === "Literal"` branch is again dead on a Babel tree). -/
def mjs_getStringValueNode : Node → String
  | .jsxText _ v => v
  | .templateLit _ qs es => if es.length = 0 then (qs.head?).getD "" else "[복잡한 표현식]"
  | .jsxExprContainer _ e => mjs_getStringValueNode e
  | _ => "[복잡한 표현식]"

/-- `getStringValue` of the .mjs checker including the `if (!node)
return ""` null check. -/
def mjs_getStringValue : Option Node → String
  | none => ""
  | some n => mjs_getStringValueNode n

/-- `checkChildren(node, options, filePath)` of the .mjs checker: one
formatted error per invalid child (the `forEach`/push written as `filter` +
`map`). -/
def mjs_checkChildren (fls : String → Option String) (filePath : String)
    (options : ResolvedJSXOptions) (node : JSXElem) : List FormattedError :=
  let aS := options.allowStrings.getD false
  let aN := options.allowNumbers.getD true
  (node.children.filter (fun child => mjs_isInvalidContentNode aS aN child)).map
    (fun child => formatError fls
      ⟨orFalsy (nodeLine child) 0,
       orFalsy (nodeColumn child) 0,
       "하드코딩된 JSX 텍스트 콘텐츠",
       "jsx-children",
       mjs_getStringValueNode child,
       none, none, none,
       some "\x7bt('componentName.text')\x7d로 교체하세요"⟩ filePath)

/-- `checkProps(node, options, filePath)` of the .mjs checker. -/
def mjs_checkProps (fls : String → Option String) (filePath : String)
    (options : ResolvedJSXOptions) (node : JSXElem) : List FormattedError :=
  let cp := options.checkProps.getD []
  let aS := options.allowStrings.getD false
  let aN := options.allowNumbers.getD true
  node.attributes.filterMap (fun attr =>
    match attr with
    | .jsxAttribute aloc attrName value =>
      if cp.contains attrName && mjs_isInvalidContent aS aN value then
        some (formatError fls
          ⟨orFalsy (value.bind nodeLine) (orFalsy (aloc.map Loc.line) 0),
           orFalsy (value.bind nodeColumn) (orFalsy (aloc.map Loc.column) 0),
           "하드코딩된 JSX 속성 \"" ++ attrName ++ "\"",
           "jsx-prop",
           mjs_getStringValue value,
           none, none, none,
           some (attrName ++ "=\x7bt('" ++ attrName ++ ".key')\x7d로 교체하세요")⟩ filePath)
      else none
    | .jsxSpreadAttribute _ => none)

/-- The `JSXElement` visitor of the .mjs checker's `checkFile`. -/
def mjs_visitElem (fls : String → Option String) (filePath : String)
    (opts : JSXOptions) (node : JSXElem) : List FormattedError :=
  let options := getOptionsForNode opts node.name
  mjs_checkChildren fls filePath options node ++ mjs_checkProps fls filePath options node

/-- `checkFile(filePath)` of the .mjs checker: a parse failure is caught,
logged as a warning (console output is not modelled) and yields the errors
collected so far — that is, none. -/
def mjs_checkFile (parseFile : String → Option (List JSXElem))
    (fls : String → Option String) (opts : JSXOptions) (filePath : String) :
    List FormattedError :=
  match parseFile filePath with
  | none => []
  | some elems => elems.flatMap (mjs_visitElem fls filePath opts)

/-- The per-file loop of `checkJSXHardcoding`: every file is processed and
its errors appended. -/
def mjs_runFiles (parseFile : String → Option (List JSXElem))
    (fls : String → Option String) (opts : JSXOptions) (files : List String) :
    List FormattedError :=
  files.flatMap (mjs_checkFile parseFile fls opts)

/-- The `CodeError` record built by the TypeScript rewrite (and consumed by
the TypeScript ErrorReporter variants). -/
structure CodeError where
  line : Nat
  column : Nat
  message : String
  type : String
  value : String
  codeSnippet : String

/-- `isInvalidContent(node, options)` of the TypeScript rewrite
(part_003), on a non-null node.  It duck-types on a `value` field
(`"value" in node`), so Babel `StringLiteral` / `NumericLiteral` nodes are
handled; `TemplateLiteral` and `JSXExpressionContainer` have no `value`
field and reach their type tests. -/
def part003_isInvalidContentNode (aS aN : Bool) : Node → Bool
  | .jsxText _ v => if jsTrim v = "" then false else !aS
  | .stringLit _ v => if jsTrim v = "" then false else !aS
  | .numericLit _ _ => !aN
  | .templateLit _ _ _ => !aS
  | .jsxExprContainer _ e => part003_isInvalidContentNode aS aN e
  | _ => false

/-- `isInvalidContent` of part_003, including the null check. -/
def part003_isInvalidContent (aS aN : Bool) : Option Node → Bool
  | none => false
  | some n => part003_isInvalidContentNode aS aN n

/-- `getStringValue(node)` of part_003 on a non-null node (dispatch order:
`JSXText`, container, non-interpolated template, then the `"value" in node`
duck-typing, which returns a string value and gives the complex-expression
sentinel for a non-string `value`; every other shape falls through to the
sentinel). -/
def part003_getStringValueNode : Node → String
  | .jsxText _ v => v
  | .jsxExprContainer _ e => part003_getStringValueNode e
  | .templateLit _ qs es => if es.length = 0 then (qs.head?).getD "" else "[복잡한 표현식]"
  | .stringLit _ v => v
  | .numericLit _ _ => "[복잡한 표현식]"
  | _ => "[복잡한 표현식]"

/-- `getStringValue` of part_003 including the null check. -/
def part003_getStringValue : Option Node → String
  | none => ""
  | some n => part003_getStringValueNode n

/-- `checkChildren(node, options)` of part_003 (errors carry an empty
`codeSnippet`; the reporter formats them later). -/
def part003_checkChildren (options : ResolvedJSXOptions) (node : JSXElem) :
    List CodeError :=
  let aS := options.allowStrings.getD false
  let aN := options.allowNumbers.getD true
  (node.children.filter (fun child => part003_isInvalidContentNode aS aN child)).map
    (fun child =>
      ⟨orFalsy (nodeLine child) 0,
       orFalsy (nodeColumn child) 0,
       "하드코딩된 JSX 텍스트 콘텐츠",
       "jsx-children",
       part003_getStringValueNode child,
       ""⟩)

/-- `checkProps(node, options)` of part_003. -/
def part003_checkProps (options : ResolvedJSXOptions) (node : JSXElem) :
    List CodeError :=
  let cp := options.checkProps.getD []
  let aS := options.allowStrings.getD false
  let aN := options.allowNumbers.getD true
  node.attributes.filterMap (fun attr =>
    match attr with
    | .jsxAttribute aloc attrName value =>
      if cp.contains attrName && part003_isInvalidContent aS aN value then
        some ⟨orFalsy (value.bind nodeLine) (orFalsy (aloc.map Loc.line) 0),
              orFalsy (value.bind nodeColumn) (orFalsy (aloc.map Loc.column) 0),
              "하드코딩된 JSX 속성 \"" ++ attrName ++ "\"",
              "jsx-prop",
              part003_getStringValue value,
              ""⟩
      else none
    | .jsxSpreadAttribute _ => none)

/-- The `JSXElement` visitor of part_003's `checkFile`. -/
def part003_visitElem (opts : JSXOptions) (node : JSXElem) : List CodeError :=
  let options := getOptionsForNode opts node.name
  part003_checkChildren options node ++ part003_checkProps options node

/-- `checkFile(filePath)` of part_003: `errAsync` on a parse failure
(modelled as `none`), `okAsync` with the collected errors otherwise. -/
def part003_checkFile (opts : JSXOptions) (parseFile : String → Option (List JSXElem))
    (filePath : String) : Option (List CodeError) :=
  (parseFile filePath).map (fun elems => elems.flatMap (part003_visitElem opts))

/-- The per-file loop of part_003's `checkJSXHardcode`: on
`result.isErr()` it logs and `return`s — the remaining files are never
processed and no report is printed.  The aborted run is modelled as
`none`; a completed run yields the accumulated `allErrors`. -/
def part003_runLoop (opts : JSXOptions) (parseFile : String → Option (List JSXElem)) :
    List String → List CodeError → Option (List CodeError)
  | [], acc => some acc
  | f :: fs, acc =>
    match part003_checkFile opts parseFile f with
    | none => none
    | some errs => part003_runLoop opts parseFile fs (acc ++ errs)

/-- `checkJSXHardcode(patterns)` of part_003, restricted to its per-file
phase: the diagnostics the run accumulates, or `none` when a parse failure
aborted it. -/
def part003_runFiles (opts : JSXOptions) (parseFile : String → Option (List JSXElem))
    (files : List String) : Option (List CodeError) :=
  part003_runLoop opts parseFile files []

/-! ## The TypeScript ErrorReporter variants (part_000 and part_001)

`codeFrameColumns` (from `@babel/code-frame`) is an external collaborator
and is abstracted as a function `cfb`; `none` models a throw. -/

/-- `getFileLines` of part_000 (content split into lines, `[]` when the
read fails — the failure is additionally logged as a warning, which is not
modelled). -/
def part000_getFileLines (fls : String → Option String) (filePath : String) :
    List String :=
  match fls filePath with
  | some content => jsSplitNewline content
  | none => []

/-- The placeholder part_000 returns for unreadable/empty content. -/
def part000_unreadablePlaceholder : String := "(파일 내용을 읽을 수 없습니다)"

/-- `createCodeFrame` of part_000.  `Except.error 1` models
`process.exit(1)`: when `codeFrameColumns` throws on non-empty content the
method logs and terminates the whole process instead of degrading. -/
def part000_createCodeFrame
    (cfb : String → Nat → Nat → Option String → Option String)
    (fls : String → Option String) (filePath : String) (line column : Nat)
    (message : Option String) : Except Nat String :=
  let lines := part000_getFileLines fls filePath
  let rawLines := String.intercalate "\n" lines
  if rawLines.length = 0 then .ok part000_unreadablePlaceholder
  else
    match cfb rawLines line column message with
    | some frame => .ok frame
    | none => .error 1

/-- `getFileLines` of part_001 (the cache stores the raw content string,
`""` when the read fails). -/
def part001_getFileContent (fls : String → Option String) (filePath : String) :
    String :=
  match fls filePath with
  | some content => content
  | none => ""

/-- The placeholder part_001's catch returns. -/
def part001_snippetPlaceholder (filePath : String) : String :=
  "⚠️  코드 스니펫을 생성할 수 없습니다: " ++ filePath

/-- `generateCodeSnippet` of part_001: any throw from `codeFrameColumns`
degrades to the placeholder. -/
def part001_generateCodeSnippet
    (cfb : String → Nat → Nat → Option String → Option String)
    (fls : String → Option String) (filePath : String) (line column : Nat) : String :=
  match cfb (part001_getFileContent fls filePath) line column none with
  | some frame => frame
  | none => part001_snippetPlaceholder filePath

/-- `formatError` of part_001: the spread copy of the error with its
`codeSnippet` replaced by the generated one. -/
def part001_formatError (cfb : String → Nat → Nat → Option String → Option String)
    (fls : String → Option String) (error : CodeError) (filePath : String) : CodeError :=
  { error with codeSnippet := part001_generateCodeSnippet cfb fls filePath error.line error.column }

/-- The mutable state of a part_001 reporter: the `fileErrors` map in key
insertion order, and the flat `codeErrors` array. -/
structure Part001State where
  fileErrors : List (String × List CodeError)
  codeErrors : List CodeError

/-- The empty reporter state built by the constructor. -/
def part001_initState : Part001State := ⟨[], []⟩

/-- Insert into the `fileErrors` map, preserving key insertion order. -/
def mapUpsert (m : List (String × List CodeError)) (filePath : String)
    (e : CodeError) : List (String × List CodeError) :=
  if m.any (fun g => g.1 = filePath) then
    m.map (fun g => if g.1 = filePath then (g.1, g.2 ++ [e]) else g)
  else m ++ [(filePath, [e])]

/-- `addCodeError(filePath, error)` of part_001 (formats, then pushes to
both containers). -/
def part001_addCodeError (cfb : String → Nat → Nat → Option String → Option String)
    (fls : String → Option String) (st : Part001State) (filePath : String)
    (error : CodeError) : Part001State :=
  let formattedError := part001_formatError cfb fls error filePath
  ⟨mapUpsert st.fileErrors filePath formattedError, st.codeErrors ++ [formattedError]⟩

/-- `Object.entries(m)` where `m` is a JavaScript `Map`: a `Map`'s entries
are not own enumerable string-keyed properties, so the result is always the
empty list — the per-file loops of the part_000/part_001
`generateErrorReport` never run. -/
def jsObjectEntriesOfMap (m : List (String × List CodeError)) :
    List (String × List CodeError) :=
  let _ := m
  []

/-- The lines pushed for one grouped file in the part_001 report (dead code
at run time, see `jsObjectEntriesOfMap`; included for completeness). -/
def part001_fileSection (filePath : String) (fileErrors : List CodeError) :
    List String :=
  ["📁 " ++ filePath ++ " (" ++ toString fileErrors.length ++ "개 에러)",
   reportSeparator] ++
  (fileErrors.enum.foldr (fun ie rest =>
    (["\nError " ++ toString (ie.1 + 1) ++ ": " ++ ie.2.message] ++
     [ie.2.codeSnippet] ++
     (if ie.1 < fileErrors.length - 1 then [""] else [])) ++ rest) []) ++
  ["\n" ++ reportSeparator ++ "\n"]

/-- `generateErrorReport` of part_001 (part_000's differs only in saying
`error.codeFrame`): the header count is `this.fileErrors.size` — the number
of distinct files, not of diagnostics — and the per-file loop iterates
`Object.entries` of a `Map`, which is empty. -/
def part001_generateErrorReport (st : Part001State) : String :=
  let totalErrorCount := st.fileErrors.length
  String.intercalate "\n"
    (["🚨 총 " ++ toString totalErrorCount ++ "개의 하드코딩 발견!\n"] ++
     ((jsObjectEntriesOfMap st.fileErrors).foldr
       (fun g rest => part001_fileSection g.1 g.2 ++ rest) []))

/-! ## Shared helpers for the theorems -/

/-- A file system on which every read fails. -/
def emptyFls : String → Option String := fun _ => none

/-- A code-frame builder that always throws. -/
def noneFrameBuilder : String → Nat → Nat → Option String → Option String :=
  fun _ _ _ _ => none

/-- The key name of an object property (`none` for spreads and other
member shapes, which never get their own finding). -/
def keyNameOf : ObjProp → Option String
  | .objectProperty _ k _ => some (propKeyName k)
  | _ => none

lemma staticFoldl_eq_sum (qs : List String) :
    qs.foldl (fun total q => total + q.length) 0 = (qs.map String.length).sum := by
  rw [List.sum_eq_foldl, List.foldl_map]

/-- `getObjectPropertyErrors` assigns each offending property's key name as
the finding's `propertyName`. -/
lemma objPropErrors_map_propertyName (cfg : ToastOptions)
    (fls : String → Option String) (props : List ObjProp)
    (functionName filePath : String) :
    (getObjectPropertyErrors cfg fls props functionName filePath).map
        (fun e => e.err.propertyName)
      = (props.filter (offendingProperty cfg)).map keyNameOf := by
  unfold getObjectPropertyErrors
  rw [List.map_map]
  apply List.map_congr_left
  intro p _
  cases p <;> rfl

/-- If no property of the object is hardcoded (per
`hasHardcodedObjectProperties`), no property is offending. -/
lemma filter_offending_eq_nil_of_not_hardcoded (cfg : ToastOptions)
    (props : List ObjProp)
    (h : hasHardcodedObjectProperties cfg props = false) :
    props.filter (offendingProperty cfg) = [] := by
  induction props with
  | nil => rfl
  | cons p ps ih =>
    rw [hasHardcodedObjectProperties] at h
    rcases Bool.or_eq_false_iff.mp h with ⟨h1, h2⟩
    have hp : offendingProperty cfg p = false := by
      cases p with
      | objectProperty l k v => simpa [objPropHardcodedGuard, offendingProperty] using h1
      | spreadElement l a => rfl
      | otherProp l => rfl
    rw [List.filter_cons, hp]
    simpa using ih h2

/-! ## Claims -/

/-- C3.  The Allow-List Matcher returns `true` on empty or whitespace-only
values; on every other value it returns `true` exactly when the value
matches at least one configured allow pattern, and `false` when it matches
none. -/
theorem c3_isAllowedPattern_spec (cfg : ToastOptions) (value : String) :
    (jsTrim value = "" → isAllowedPattern cfg value = true)
    ∧ (jsTrim value ≠ "" →
        (isAllowedPattern cfg value = true ↔
          ∃ p ∈ cfg.allowPatterns, patternTest p value = true)) := by
  constructor
  · intro h
    unfold isAllowedPattern
    rw [h]
    simp
  · intro h
    have h0 : value ≠ "" := by
      intro he
      exact h (by rw [he]; rfl)
    unfold isAllowedPattern
    rw [if_neg (by simp [h, h0])]
    exact List.any_eq_true

/-- Closed witness for C3 at the non-empty value `"Network"`. -/
theorem c3_witness :
    isAllowedPattern defaultToastOptions "Network" = true ↔
      ∃ p ∈ defaultToastOptions.allowPatterns, patternTest p "Network" = true :=
  (c3_isAllowedPattern_spec defaultToastOptions "Network").2
    (by rw [show jsTrim "Network" = "Network" from rfl]; decide)

/-- C10.  `formatError` returns a record copying every field of the input
finding unchanged (the `...error` spread, modelled by the `err` component)
and adds exactly `filePath`, `context` and `codeSnippet` (the three extra
fields of `FormattedError`); the embedding is pure, so the input finding is
unchanged. -/
theorem c10_formatError_copies_fields (fls : String → Option String)
    (error : ErrorInfo) (filePath : String) :
    (formatError fls error filePath).err = error
    ∧ (formatError fls error filePath).filePath = filePath
    ∧ (formatError fls error filePath).context
        = createCodeContext fls filePath error.line error.column 2
    ∧ (formatError fls error filePath).codeSnippet
        = generateCodeSnippet (createCodeContext fls filePath error.line error.column 2)
            error.column :=
  ⟨rfl, rfl, rfl, rfl⟩

/-- C1, amended.  For a configured notification call, an object-literal
argument is expanded property-by-property: the findings are exactly one per
property whose key is an identifier whose name is in
`userFacingPropertyNames` and whose value is hardcoded (in order,
`offendingProperty` being that guard), never one finding for the whole
object.  String-keyed properties are never matched, even when their key
text is in the set — see the counterexample. -/
theorem c1_object_argument_expansion (cfg : ToastOptions)
    (fls : String → Option String) (filePath : String) (callee : Node)
    (l : Option Loc) (props : List ObjProp)
    (h : isToastFunction cfg (getCalleeText callee) = true) :
    (toastCheckCall cfg fls filePath callee [Node.objectExpr l props]).map
        (fun e => e.err.propertyName)
      = (props.filter (offendingProperty cfg)).map keyNameOf := by
  unfold toastCheckCall
  simp only [h, if_true, findHardcodedArguments, List.filter_cons, List.filter_nil]
  by_cases hv : isHardcodedValue cfg (Node.objectExpr l props) = true
  · rw [hv]
    simp only [if_true, List.flatMap_cons, List.flatMap_nil, List.append_nil]
    exact objPropErrors_map_propertyName cfg fls props (getCalleeText callee) filePath
  · rw [Bool.not_eq_true] at hv
    rw [hv]
    rw [isHardcodedValue] at hv
    rw [filter_offending_eq_nil_of_not_hardcoded cfg props hv]
    rfl

/-- Closed witness for C1: `Message.error({ title: "Error", description:
t('d') })` yields exactly one finding, for `title` and none for
`description`. -/
theorem c1_witness_title_description :
    (toastCheckCall defaultToastOptions emptyFls "App.tsx"
        (Node.memberExpr none (Node.ident none "Message") "error")
        [Node.objectExpr none
          [ObjProp.objectProperty none (.keyIdent "title") (Node.stringLit (some ⟨3, 11⟩) "Error"),
           ObjProp.objectProperty none (.keyIdent "description")
             (Node.callExpr (some ⟨3, 31⟩) (Node.ident none "t") [Node.stringLit none "d"])]]).map
        (fun e => e.err.propertyName)
      = [some "title"] := by
  rw [c1_object_argument_expansion defaultToastOptions emptyFls "App.tsx"
    (Node.memberExpr none (Node.ident none "Message") "error") none _ (by rfl)]
  simp only [List.filter_cons, List.filter_nil, offendingProperty, isUserFacingProperty,
    isHardcodedValue, hasHardcodedObjectProperties, objPropHardcodedGuard]
  rfl

/-- The object argument `{ "title": "Error" }`, whose key is a string
literal (`StringLiteral` in the Babel tree), not an identifier. -/
def c1StringKeyArg : Node :=
  Node.objectExpr none
    [ObjProp.objectProperty none (.keyString "title")
      (Node.stringLit (some ⟨7, 26⟩) "Error")]

/-- C1, counterexample.  `Message.error({ "title": "Error" })`: the key
text `title` is in `userFacingPropertyNames` and the value `"Error"` is a
hardcoded bare literal, yet the call yields no finding at all —
`isUserFacingProperty` matches only identifier keys, because its
`key.type === 'Literal'` branch never fires on the parser's
`StringLiteral` keys. -/
theorem c1_counterexample_string_key :
    defaultToastOptions.objectProperties.contains "title" = true
    ∧ isToastFunction defaultToastOptions
        (getCalleeText (Node.memberExpr none (Node.ident none "Message") "error")) = true
    ∧ isHardcodedValue defaultToastOptions (Node.stringLit (some ⟨7, 26⟩) "Error") = true
    ∧ toastCheckCall defaultToastOptions emptyFls "App.tsx"
        (Node.memberExpr none (Node.ident none "Message") "error")
        [c1StringKeyArg] = [] := by
  refine ⟨rfl, rfl, ?_, ?_⟩
  · rw [isHardcodedValue]
    rfl
  · have hv : isHardcodedValue defaultToastOptions c1StringKeyArg = false := by
      simp only [c1StringKeyArg, isHardcodedValue, hasHardcodedObjectProperties,
        objPropHardcodedGuard, isUserFacingProperty, Bool.false_and, Bool.false_or,
        Bool.or_false]
    unfold toastCheckCall
    simp only [findHardcodedArguments, List.filter_cons, List.filter_nil, hv]
    rfl

/-- C2.  A template literal with interpolations is classified hardcoded
exactly when the summed length of its static segments reaches
`MIN_STATIC_LENGTH`; passed as a notification-call argument it then yields
exactly one finding, otherwise none. -/
theorem c2_mixed_template_threshold (cfg : ToastOptions)
    (fls : String → Option String) (filePath : String) (callee : Node)
    (l : Option Loc) (qs : List String) (es : List Node)
    (h1 : isToastFunction cfg (getCalleeText callee) = true)
    (h2 : es ≠ []) :
    (isHardcodedValue cfg (Node.templateLit l qs es)
        = decide (minimumStaticTemplateLength ≤ (qs.map String.length).sum))
    ∧ (toastCheckCall cfg fls filePath callee [Node.templateLit l qs es]).length
        = if minimumStaticTemplateLength ≤ (qs.map String.length).sum then 1 else 0 := by
  have hlen : ¬ es.length = 0 := by
    simpa [List.length_eq_zero] using h2
  have hmain : isHardcodedValue cfg (Node.templateLit l qs es)
      = decide (minimumStaticTemplateLength ≤ (qs.map String.length).sum) := by
    rw [isHardcodedValue, if_neg hlen, hasSignificantStaticContent, staticFoldl_eq_sum]
  refine ⟨hmain, ?_⟩
  unfold toastCheckCall
  simp only [h1, if_true, findHardcodedArguments, List.filter_cons, List.filter_nil, hmain]
  by_cases hsig : minimumStaticTemplateLength ≤ (qs.map String.length).sum
  · rw [if_pos hsig]
    simp [hsig]
  · rw [if_neg hsig]
    simp [hsig]

/-- Closed witness for C2: with `alert`, the mixed template with static
content `"" + "!"` (length 1, below the threshold) yields no finding, and
the one with static content `"Are you sure you want to delete " + "?"`
(length 33) yields exactly one. -/
theorem c2_witness_thresholds :
    (toastCheckCall defaultToastOptions emptyFls "App.tsx" (Node.ident none "alert")
        [Node.templateLit none ["", "!"] [Node.ident none "name"]]).length = 0
    ∧ (toastCheckCall defaultToastOptions emptyFls "App.tsx" (Node.ident none "alert")
        [Node.templateLit none ["Are you sure you want to delete ", "?"]
          [Node.ident none "name"]]).length = 1 := by
  constructor
  · rw [(c2_mixed_template_threshold defaultToastOptions emptyFls "App.tsx"
      (Node.ident none "alert") none ["", "!"] [Node.ident none "name"]
      (by rfl) (List.cons_ne_nil _ _)).2]
    rfl
  · rw [(c2_mixed_template_threshold defaultToastOptions emptyFls "App.tsx"
      (Node.ident none "alert") none ["Are you sure you want to delete ", "?"]
      [Node.ident none "name"] (by rfl) (List.cons_ne_nil _ _)).2]
    rfl

/-- C6.  `Message.error("Network error")` yields exactly one finding whose
suggested replacement is `Message.error(t('error.networkError'))`: the
prefix `error` comes from the fixed context table and the key body is the
camel-cased cleaned value. -/
theorem c6_message_error_suggested_key :
    toastCheckCall defaultToastOptions emptyFls "App.tsx"
        (Node.memberExpr none (Node.ident none "Message") "error")
        [Node.stringLit (some ⟨10, 16⟩) "Network error"]
      = [⟨⟨10, 16, "하드코딩된 Message.error 메시지", "toast-function", "Network error",
          some "Message.error", none, none,
          some "Message.error(t('error.networkError'))"⟩, "App.tsx", [], ""⟩]
    ∧ contextPrefixOf "Message.error" = "error"
    ∧ suggestKey "Message.error" "Network error" = "error.networkError" := by
  refine ⟨?_, rfl, rfl⟩
  have hh : isHardcodedValue defaultToastOptions
      (Node.stringLit (some ⟨10, 16⟩) "Network error") = true := by
    rw [isHardcodedValue]
    rfl
  unfold toastCheckCall
  simp only [findHardcodedArguments, List.filter_cons, List.filter_nil, hh]
  rfl

/-- The element `<div>123</div>` (its text child at line 3, column 9). -/
def c4DivElem : JSXElem :=
  ⟨.jsxIdentifier "div", [], [Node.jsxText (some ⟨3, 9⟩) "123"]⟩

/-- C4, counterexample.  The Allow-List Matcher allows `"123"` (the pure
integer pattern), yet the markup text check still flags the `<div>123</div>`
child: the JSX checker never consults the matcher. -/
theorem c4_counterexample_digits_child :
    isAllowedPattern defaultToastOptions "123" = true
    ∧ (mjs_visitElem emptyFls "Demo.tsx" jsxDefaultOptions c4DivElem).length = 1 :=
  ⟨rfl, rfl⟩

/-- C4, amended.  A non-empty literal-text child (or a non-interpolated
template child inside its expression container) is flagged exactly when the
resolved policy's `allowStrings` is false — the Allow-List Matcher plays no
part — and `checkChildren` emits exactly one finding per flagged child. -/
theorem c4_amended_markup_text_ignores_allowlist
    (aS aN : Bool) (l : Option Loc) (v : String) (h : jsTrim v ≠ "") :
    mjs_isInvalidContentNode aS aN (Node.jsxText l v) = !aS
    ∧ (∀ (l2 l3 : Option Loc) (qs : List String),
        mjs_isInvalidContentNode aS aN
          (Node.jsxExprContainer l2 (Node.templateLit l3 qs [])) = !aS)
    ∧ ∀ (fls : String → Option String) (filePath : String)
        (options : ResolvedJSXOptions) (node : JSXElem),
        (mjs_checkChildren fls filePath options node).length
          = node.children.countP
              (fun child => mjs_isInvalidContentNode (options.allowStrings.getD false)
                (options.allowNumbers.getD true) child) := by
  refine ⟨?_, ?_, ?_⟩
  · rw [mjs_isInvalidContentNode, if_neg h]
  · intro l2 l3 qs
    rfl
  · intro fls filePath options node
    unfold mjs_checkChildren
    simp only [List.length_map]
    exact (List.countP_eq_length_filter _ _).symm

/-- Closed witness for C4's amended claim at the flagged `"123"` child. -/
theorem c4_witness_markup_text :
    mjs_isInvalidContentNode false true (Node.jsxText (some ⟨3, 9⟩) "123") = !false :=
  (c4_amended_markup_text_ignores_allowlist false true (some ⟨3, 9⟩) "123"
    (by rw [show jsTrim "123" = "123" from rfl]; decide)).1

/-- The element `<button title="Click me">{t('label')}</button>` with the
title value starting at line 1, column 14. -/
def buttonElem : JSXElem :=
  ⟨.jsxIdentifier "button",
   [.jsxAttribute (some ⟨1, 8⟩) "title" (some (Node.stringLit (some ⟨1, 14⟩) "Click me"))],
   [Node.jsxExprContainer (some ⟨1, 25⟩)
     (Node.callExpr (some ⟨1, 26⟩) (Node.ident (some ⟨1, 26⟩) "t")
       [Node.stringLit (some ⟨1, 28⟩) "label"])]⟩

/-- C5.  Under the default configuration (whose resolved `button` policy
checks `title` with `allowStrings` false), the TypeScript rewrite yields
exactly one finding, at the `title` value's position, and none for the
`{t('label')}` child — while jsx-hardcoded-checker.mjs yields none at all,
because its `node.type === "Literal"` test never matches the parser's
`StringLiteral` nodes. -/
theorem c5_button_title_end_to_end :
    part003_visitElem jsxDefaultOptions buttonElem
      = [⟨1, 14, "하드코딩된 JSX 속성 \"title\"", "jsx-prop", "Click me", ""⟩]
    ∧ part003_checkChildren (getOptionsForNode jsxDefaultOptions buttonElem.name) buttonElem = []
    ∧ mjs_visitElem emptyFls "Button.tsx" jsxDefaultOptions buttonElem = [] :=
  ⟨rfl, rfl, rfl⟩

/-- A `<div>Save</div>` element (one hardcoded text child). -/
def c7GoodElem : JSXElem :=
  ⟨.jsxIdentifier "div", [], [Node.jsxText (some ⟨2, 4⟩) "Save"]⟩

/-- A parser collaborator on which `Bad.tsx` fails to parse and every other
file parses to a single `<div>Save</div>`. -/
def demoParseFile : String → Option (List JSXElem) :=
  fun filePath => if filePath = "Bad.tsx" then none else some [c7GoodElem]

/-- C7, counterexample.  In the TypeScript rewrite a parse failure aborts
the run: with `["Bad.tsx", "Good.tsx"]` nothing at all is reported (the
loop `return`s before reaching `Good.tsx`), whereas the run without the
failing file reports `Good.tsx`'s finding — the diagnostic sets differ. -/
theorem c7_counterexample_part003_aborts :
    part003_runFiles jsxDefaultOptions demoParseFile ["Bad.tsx", "Good.tsx"] = none
    ∧ part003_runFiles jsxDefaultOptions demoParseFile ["Good.tsx"]
        = some [⟨2, 4, "하드코딩된 JSX 텍스트 콘텐츠", "jsx-children", "Save", ""⟩] :=
  ⟨rfl, rfl⟩

/-- C7, amended.  In jsx-hardcoded-checker.mjs a file whose parse fails
contributes zero findings and the run continues over all remaining files:
the run's diagnostics equal those of the run with the failing file
removed.  (The warning log is console output and is not modelled; the
TypeScript rewrite instead aborts, see the counterexample.) -/
theorem c7_amended_parse_failure_skipped
    (parseFile : String → Option (List JSXElem)) (fls : String → Option String)
    (opts : JSXOptions) (files : List String) (f : String)
    (h : parseFile f = none) :
    mjs_checkFile parseFile fls opts f = []
    ∧ mjs_runFiles parseFile fls opts files
        = mjs_runFiles parseFile fls opts (files.filter (fun g => g ≠ f)) := by
  have hcf : mjs_checkFile parseFile fls opts f = [] := by
    unfold mjs_checkFile
    rw [h]
  refine ⟨hcf, ?_⟩
  induction files with
  | nil => rfl
  | cons a as ih =>
    unfold mjs_runFiles at ih ⊢
    rw [List.filter_cons]
    by_cases ha : a = f
    · subst ha
      rw [if_neg (by simp)]
      simp only [List.flatMap_cons, hcf, List.nil_append]
      exact ih
    · rw [if_pos (by simp [ha])]
      simp only [List.flatMap_cons]
      rw [ih]

/-- Closed witness for C7's amended claim on the demo parser. -/
theorem c7_witness_parse_failure :
    mjs_checkFile demoParseFile emptyFls jsxDefaultOptions "Bad.tsx" = []
    ∧ mjs_runFiles demoParseFile emptyFls jsxDefaultOptions ["Bad.tsx", "Good.tsx"]
        = mjs_runFiles demoParseFile emptyFls jsxDefaultOptions
            (["Bad.tsx", "Good.tsx"].filter (fun g => g ≠ "Bad.tsx")) :=
  c7_amended_parse_failure_skipped demoParseFile emptyFls jsxDefaultOptions
    ["Bad.tsx", "Good.tsx"] "Bad.tsx" rfl

/-- A file system on which every path reads as `const x = 1`. -/
def oneLineFls : String → Option String := fun _ => some "const x = 1"

/-- C8, counterexample.  In the part_000 reporter, a `codeFrameColumns`
failure on readable (non-empty) content does not degrade to a placeholder:
`createCodeFrame` calls `process.exit(1)` (modelled as `Except.error 1`),
terminating the process. -/
theorem c8_counterexample_part000_exits :
    part000_createCodeFrame noneFrameBuilder oneLineFls "A.tsx" 1 0 none
      = Except.error 1 :=
  rfl

/-- C8, amended.  Formatting failures degrade without propagating —
part_000 returns its unreadable-content placeholder when the file cannot be
read, part_001 returns its placeholder whenever the code-frame builder
throws, and the enhanced reporter degrades an unreadable file to an empty
context and snippet — except that part_000 exits the process when the
builder itself fails on non-empty content (the counterexample). -/
theorem c8_amended_degrade_behaviour
    (cfb : String → Nat → Nat → Option String → Option String)
    (fls : String → Option String) (filePath : String) (line column : Nat)
    (message : Option String) (error : ErrorInfo)
    (hread : fls filePath = none)
    (hframe : cfb (part001_getFileContent fls filePath) line column none = none) :
    part000_createCodeFrame cfb fls filePath line column message
        = Except.ok part000_unreadablePlaceholder
    ∧ part001_generateCodeSnippet cfb fls filePath line column
        = part001_snippetPlaceholder filePath
    ∧ (formatError fls error filePath).context = []
    ∧ (formatError fls error filePath).codeSnippet = "" := by
  have hctx : createCodeContext fls filePath error.line error.column 2 = [] := by
    unfold createCodeContext getFileLines
    rw [hread]
    have h2 : (0 : Nat) + 1 - max 1 (error.line - 2) = 0 := by
      have h3 := Nat.le_max_left 1 (error.line - 2)
      omega
    simp [h2]
  refine ⟨?_, ?_, ?_, ?_⟩
  · unfold part000_createCodeFrame part000_getFileLines
    rw [hread]
    rfl
  · unfold part001_generateCodeSnippet
    rw [hframe]
  · show createCodeContext fls filePath error.line error.column 2 = []
    exact hctx
  · show generateCodeSnippet (createCodeContext fls filePath error.line error.column 2)
      error.column = ""
    rw [hctx]
    rfl

/-- A sample finding used to exercise the enhanced reporter. -/
def sampleErrorInfo : ErrorInfo := ⟨5, 2, "m", "t", "v", none, none, none, none⟩

/-- Closed witness for C8's amended claim on a failing builder and an
unreadable file system. -/
theorem c8_witness_degrade :
    part000_createCodeFrame noneFrameBuilder emptyFls "A.tsx" 5 2 none
        = Except.ok part000_unreadablePlaceholder
    ∧ part001_generateCodeSnippet noneFrameBuilder emptyFls "A.tsx" 5 2
        = part001_snippetPlaceholder "A.tsx"
    ∧ (formatError emptyFls sampleErrorInfo "A.tsx").context = []
    ∧ (formatError emptyFls sampleErrorInfo "A.tsx").codeSnippet = "" :=
  c8_amended_degrade_behaviour noneFrameBuilder emptyFls "A.tsx" 5 2 none
    sampleErrorInfo rfl rfl

/-- Two findings for the same file, as fed to the part_001 reporter. -/
def c9Err1 : CodeError := ⟨1, 2, "하드코딩된 JSX 속성 \"title\"", "jsx-prop", "Click me", ""⟩

/-- A second finding for the same file. -/
def c9Err2 : CodeError := ⟨4, 6, "하드코딩된 JSX 텍스트 콘텐츠", "jsx-children", "Save", ""⟩

/-- The part_001 reporter state after adding both findings for `A.tsx`. -/
def c9State : Part001State :=
  part001_addCodeError noneFrameBuilder emptyFls
    (part001_addCodeError noneFrameBuilder emptyFls part001_initState "A.tsx" c9Err1)
    "A.tsx" c9Err2

/-- The same two findings formatted for the enhanced reporter. -/
def c9Fmt1 : FormattedError :=
  formatError emptyFls ⟨1, 2, "msg1", "jsx-prop", "v1", none, none, none, some "s1"⟩ "A.tsx"

/-- The second formatted finding. -/
def c9Fmt2 : FormattedError :=
  formatError emptyFls ⟨4, 6, "msg2", "toast-function", "v2", none, none, none, none⟩ "A.tsx"

/-- C9.  With two diagnostics recorded for one file, the part_001 reporter
renders a header counting `1` (the number of distinct files,
`fileErrors.size`) and nothing else — `Object.entries` of its `Map` is
empty, so neither diagnostic appears — while the enhanced reporter's header
counts the diagnostics (`2`) and its grouping lists each diagnostic exactly
once under its file. -/
theorem c9_report_header_and_grouping_bug :
    c9State.codeErrors.length = 2
    ∧ part001_generateErrorReport c9State = "🚨 총 1개의 하드코딩 발견!\n"
    ∧ (generateReportLines [c9Fmt1, c9Fmt2]).head? = some "🚨 총 2개의 하드코딩 발견!\n"
    ∧ groupErrorsByFile [c9Fmt1, c9Fmt2] = [("A.tsx", [c9Fmt1, c9Fmt2])] :=
  ⟨rfl, rfl, rfl, rfl⟩
